import Mathlib

/-!
# Verification of the EKF-SLAM core (`nuslam`)

Shallow embedding of `src/nuslam/src/nuslam/ekf_slam.cpp` (and the parts of the
`rigid2d` planar-algebra library it uses) over the real numbers, together with
theorems settling the frozen claims about the natural-language specification.

Modelling conventions:
* C++ `double` arithmetic is idealized as real arithmetic.
* `Eigen` vectors and matrices with dynamic size are embedded as plain entry
  functions `ℕ → ℝ` / `ℕ → ℕ → ℝ` together with a separately tracked size, or
  (where Eigen's runtime dimension assertions are load-bearing) as the `EMat`
  record below, whose arithmetic operations perform exactly Eigen's dimension
  checks and return `none` where Eigen would abort.
* The process-scoped pseudo-random generator is embedded by explicit state
  passing: each draw of `sampleNormalDistribution` becomes an input sample, so a
  run of `MotionModelUpdate`/`MeasurmentModelUpdate` is parameterized by the
  sample stream it would have consumed.
* Eigen's `llt().matrixL()` (a library routine, not repository code) is
  embedded by passing the factor `l` itself as an input; theorems that depend
  on it hypothesize its defining property `l * lᵀ = Q`.
-/

namespace Rigid2D

/-- `rigid2d::Twist2D` (rigid2d.hpp lines 102-121): angular z, linear x and y. -/
structure Twist2D where
  wz : ℝ
  vx : ℝ
  vy : ℝ

/-- Modelled from the spec: `rigid2d::normalize_angle` is called by
`ekf_slam.cpp` (line 215) but its definition (in `rigid2d.cpp`) is not under
`src/`.  Spec section 4.1: "maps any real a into (−π, π], using wrap-around;
idempotent", with the boundary cases of section 8 scenario 6
(`normalize_angle(π) = π`, `normalize_angle(−π) = π`, `normalize_angle(3π) = π`,
`normalize_angle(−3π/2) = π/2`).  The closed form below subtracts the unique
integer multiple of 2π that lands in (−π, π]. -/
noncomputable def normalize_angle (a : ℝ) : ℝ :=
  a - 2 * Real.pi * (⌈(a - Real.pi) / (2 * Real.pi)⌉ : ℤ)

end Rigid2D

namespace EkfSlam

open Rigid2D

/-- C `atan2(y, x)`, idealized over ℝ as the argument of the complex number
`x + y·i`; like `atan2` it takes values in (−π, π] on nonzero inputs. -/
noncomputable def atan2 (y x : ℝ) : ℝ := Complex.arg ⟨x, y⟩

/-- A dynamically sized Eigen matrix (`Eigen::MatrixXd`): a size together with
an entry function.  Entries outside `rows × cols` are irrelevant padding. -/
structure EMat where
  rows : ℕ
  cols : ℕ
  entry : ℕ → ℕ → ℝ

/-- Eigen `operator+`: defined only when both dimensions agree (Eigen asserts
and aborts otherwise, which the `none` branch models). -/
noncomputable def eadd (A B : EMat) : Option EMat :=
  if A.rows = B.rows ∧ A.cols = B.cols then
    some ⟨A.rows, A.cols, fun i j => A.entry i j + B.entry i j⟩
  else none

/-- Eigen `operator-` on matrices, with the same dimension assertion. -/
noncomputable def esub (A B : EMat) : Option EMat :=
  if A.rows = B.rows ∧ A.cols = B.cols then
    some ⟨A.rows, A.cols, fun i j => A.entry i j - B.entry i j⟩
  else none

/-- Eigen `operator*` (matrix product): defined only when the inner dimensions
agree (Eigen asserts and aborts otherwise). -/
noncomputable def emul (A B : EMat) : Option EMat :=
  if A.cols = B.rows then
    some ⟨A.rows, B.cols, fun i j => ∑ k in Finset.range A.cols, A.entry i k * B.entry k j⟩
  else none

/-- Eigen `.transpose()`. -/
def etrans (A : EMat) : EMat := ⟨A.cols, A.rows, fun i j => A.entry j i⟩

/-- Eigen `MatrixXd::Identity(n, n)`. -/
noncomputable def eident (n : ℕ) : EMat :=
  ⟨n, n, fun i j => if i = j then 1 else 0⟩

/-- Eigen `.inverse()` on a dynamic matrix: requires a square operand (Eigen
asserts otherwise); the entries are those of the Mathlib matrix inverse. -/
noncomputable def einv (A : EMat) : Option EMat :=
  if A.rows = A.cols then
    some ⟨A.rows, A.cols, fun i j =>
      if h : i < A.rows ∧ j < A.rows then
        (Matrix.of fun p q : Fin A.rows => A.entry p.val q.val)⁻¹ ⟨i, h.1⟩ ⟨j, h.2⟩
      else 0⟩
  else none

/-- The `nuslam::TurtleMap` message as consumed by the filter: a sequence of
landmark centers `(x, y)` and a sequence of radii. -/
structure TurtleMap where
  centers : List (ℝ × ℝ)
  radii : List ℝ

/-- The `Slam` estimator state (members of `ekf_slam::Slam`):
state size `3 + 2L`, process noise `Qnoise` (3×3), measurement noise `Rnoise`
(3×3, `Eigen::Matrix3d` — note the source stores the full 3×3 argument),
mean vector `prev_state` and covariance `sigma`. -/
@[ext]
structure Slam where
  state_size : ℕ
  Qnoise : ℕ → ℕ → ℝ
  Rnoise : ℕ → ℕ → ℝ
  prev_state : ℕ → ℝ
  sigma : ℕ → ℕ → ℝ

/-- The initial covariance built by the constructor (ekf_slam.cpp lines 42-47):
pose block and cross blocks zero, landmark block `10000 · I`. -/
def initSigma (n : ℕ) : ℕ → ℕ → ℝ :=
  fun i j => if i = j ∧ 3 ≤ i ∧ i < n then 10000 else 0

/-- The constructor `Slam::Slam(int num_landmarks, q_var, r_var)`
(ekf_slam.cpp lines 32-48).  It performs no validation of `q_var` or `r_var`.
For `num_landmarks < 0` the underlying Eigen resize / block operations assert
and abort (`resize` with a negative size, or `topLeftCorner(3,3)` on a matrix
smaller than 3×3), modelled as `none`; no error value of any kind is produced. -/
def Slam.new (L : ℤ) (q r : ℕ → ℕ → ℝ) : Option Slam :=
  if L < 0 then none
  else some
    { state_size := (3 + 2 * L).toNat
      Qnoise := q
      Rnoise := r
      prev_state := fun _ => 0
      sigma := initSigma (3 + 2 * L).toNat }

/-- `Slam::getStateNoise` (ekf_slam.cpp lines 93-111) after Cholesky and PRNG
explication: `l` stands for `Qnoise.llt().matrixL()` and `samples` for the
three `sampleNormalDistribution()` draws; the returned noise vector is
`noise(i) = l(i,0)·s(0) + l(i,1)·s(1) + l(i,2)·s(2)` exactly as in the source. -/
def getStateNoise (l : ℕ → ℕ → ℝ) (samples : ℕ → ℝ) : ℕ → ℝ :=
  fun i => l i 0 * samples 0 + l i 1 * samples 1 + l i 2 * samples 2

/-- Entry `(i, k)` of the motion Jacobian `Gt` assembled in
`Slam::updateCovarPrediction` (ekf_slam.cpp lines 138-144): the zero matrix
with `Gt(0,0), Gt(1,0), Gt(2,0)` set to `dupdate`, plus the identity. -/
def GtEntry (dup : ℕ → ℝ) (i k : ℕ) : ℝ :=
  (if k = 0 ∧ i < 3 then dup i else 0) + (if i = k then 1 else 0)

/-- `Slam::updateCovarPrediction` (ekf_slam.cpp lines 136-151):
`sigma ← Gt * sigma * Gtᵀ + Qbar` with `Qbar` zero except for `Qnoise` in its
top-left 3×3 corner, written entrywise.  All three operands are
`state_size × state_size`, so Eigen's dimension checks pass and the composite
is embedded directly (the `topLeftCorner(3,3)` write presumes
`state_size ≥ 3`, which holds for every constructed estimator). -/
noncomputable def updateCovarPrediction (s : Slam) (dup : ℕ → ℝ) : ℕ → ℕ → ℝ :=
  fun i j =>
    (∑ k in Finset.range s.state_size,
      (∑ l in Finset.range s.state_size, GtEntry dup i l * s.sigma l k) * GtEntry dup j k)
    + (if i < 3 ∧ j < 3 then s.Qnoise i j else 0)

/-- `Slam::MotionModelUpdate` (ekf_slam.cpp lines 50-91).  `l` and `samples`
are the explicated Cholesky factor of `Qnoise` and PRNG draws consumed by the
inner `getStateNoise` call.  Note the source's `update(2) = tw.vy * sin(th)`
(line 64) in the `wz = 0` branch, and the absence of any normalization of
`prev_state(0)`. -/
noncomputable def MotionModelUpdate (s : Slam) (tw : Twist2D) (l : ℕ → ℕ → ℝ)
    (samples : ℕ → ℝ) : Slam :=
  let noise := getStateNoise l samples
  let th := s.prev_state 0
  let upd : ℕ → ℝ :=
    if tw.wz = 0 then
      fun i => if i = 0 then 0
        else if i = 1 then tw.vx * Real.cos th
        else if i = 2 then tw.vy * Real.sin th
        else 0
    else
      fun i => if i = 0 then tw.wz
        else if i = 1 then -(tw.vx / tw.wz) * Real.sin th + (tw.vx / tw.wz) * Real.sin (th + tw.wz)
        else if i = 2 then (tw.vx / tw.wz) * Real.cos th - (tw.vx / tw.wz) * Real.cos (th + tw.wz)
        else 0
  let dupd : ℕ → ℝ :=
    if tw.wz = 0 then
      fun i => if i = 0 then 0
        else if i = 1 then -tw.vx * Real.sin th
        else if i = 2 then tw.vx * Real.cos th
        else 0
    else
      fun i => if i = 0 then 0
        else if i = 1 then -(tw.vx / tw.wz) * Real.cos th + (tw.vx / tw.wz) * Real.cos (th + tw.wz)
        else if i = 2 then -(tw.vx / tw.wz) * Real.sin th + (tw.vx / tw.wz) * Real.sin (th + tw.wz)
        else 0
  { s with
    prev_state := fun i =>
      if i = 0 then s.prev_state 0 + upd 0 + noise 0
      else if i = 1 then s.prev_state 1 + upd 1 + noise 1
      else if i = 2 then s.prev_state 2 + upd 2 + noise 2
      else s.prev_state i
    sigma := updateCovarPrediction s dupd }

/-- `Slam::sensorModel` (ekf_slam.cpp lines 203-218): range and bearing of the
point `(x, y)` as seen from the current pose estimate, plus the first two
entries of `noise`; the bearing (and only the bearing) is normalized. -/
noncomputable def sensorModel (s : Slam) (x y : ℝ) (noise : ℝ × ℝ) : ℝ × ℝ :=
  let x_diff := x - s.prev_state 1
  let y_diff := y - s.prev_state 2
  (Real.sqrt (x_diff * x_diff + y_diff * y_diff) + noise.1,
   normalize_angle (atan2 y_diff x_diff - s.prev_state 0 + noise.2))

/-- The innovation `z_actual - z_expected` of observation `i` with center `c`
(ekf_slam.cpp lines 174-182 and the vector subtracted on line 196): the
expected measurement is the sensor model of landmark estimate `i` with the
sampled measurement noise `ms` added, the actual measurement is the sensor
model of the observed center with zero noise, and the difference is taken
componentwise with no further normalization. -/
noncomputable def innovationAt (s : Slam) (i : ℕ) (c : ℝ × ℝ) (ms : ℝ × ℝ) : ℝ × ℝ :=
  let z_expected := sensorModel s (s.prev_state (3 + 2 * i)) (s.prev_state (3 + 2 * i + 1)) ms
  let z_actual := sensorModel s c.1 c.2 (0, 0)
  (z_actual.1 - z_expected.1, z_actual.2 - z_expected.2)

/-- `Slam::getHMatrix` (ekf_slam.cpp lines 220-238): the 2×`state_size`
observation Jacobian `[pt1 | 0 | pt3 | 0]` with
`pt1 = [0, -x/√d, -y/√d; -1, y/d, x/d]` (note the sign of the `(1,2)` entry in
the source) and `pt3 = [x/√d, y/√d; -y/d, x/d]` at columns `3+2·id, 4+2·id`. -/
noncomputable def getHMatrix (n : ℕ) (x y d : ℝ) (id : ℕ) : EMat :=
  ⟨2, n, fun i j =>
    if i = 0 then
      if j = 0 then 0
      else if j = 1 then -x / Real.sqrt d
      else if j = 2 then -y / Real.sqrt d
      else if j = 3 + 2 * id then x / Real.sqrt d
      else if j = 4 + 2 * id then y / Real.sqrt d
      else 0
    else if i = 1 then
      if j = 0 then -1
      else if j = 1 then y / d
      else if j = 2 then x / d
      else if j = 3 + 2 * id then -y / d
      else if j = 4 + 2 * id then x / d
      else 0
    else 0⟩

/-- `del_x, del_y` of observation `i` (ekf_slam.cpp lines 185-186). -/
def delOf (s : Slam) (i : ℕ) : ℝ × ℝ :=
  (s.prev_state (3 + 2 * i) - s.prev_state 1,
   s.prev_state (3 + 2 * i + 1) - s.prev_state 2)

/-- `dist = del_x² + del_y²` of observation `i` (ekf_slam.cpp line 188). -/
def distOf (s : Slam) (i : ℕ) : ℝ :=
  (delOf s i).1 * (delOf s i).1 + (delOf s i).2 * (delOf s i).2

/-- The `Hi` matrix assembled for observation `i` (ekf_slam.cpp line 190). -/
noncomputable def HiOf (s : Slam) (i : ℕ) : EMat :=
  getHMatrix s.state_size (delOf s i).1 (delOf s i).2 (distOf s i) i

/-- One iteration of the loop body of `Slam::MeasurmentModelUpdate`
(ekf_slam.cpp lines 168-200) for observation `i` with center `c` and sampled
measurement noise `ms`.  Every Eigen operation carries its dimension check; in
particular line 193 adds the full 3×3 `Rnoise` to the 2×2 innovation
covariance `Hi * sigma * Hiᵀ`, so this step aborts (`none`) there. -/
noncomputable def measStep (s : Slam) (i : ℕ) (c : ℝ × ℝ) (ms : ℝ × ℝ) : Option Slam :=
  let n := s.state_size
  let Hi := HiOf s i
  let sigmaE : EMat := ⟨n, n, s.sigma⟩
  (emul Hi sigmaE).bind fun t1 =>
  (emul t1 (etrans Hi)).bind fun t2 =>
  (eadd t2 ⟨3, 3, s.Rnoise⟩).bind fun innovCov =>
  (einv innovCov).bind fun innovInv =>
  (emul sigmaE (etrans Hi)).bind fun t3 =>
  (emul t3 innovInv).bind fun Ki =>
  let y := innovationAt s i c ms
  let yv : EMat := ⟨2, 1, fun p q => if p = 0 ∧ q = 0 then y.1
    else if p = 1 ∧ q = 0 then y.2 else 0⟩
  (emul Ki yv).bind fun dstate =>
  (eadd ⟨n, 1, fun p _ => s.prev_state p⟩ dstate).bind fun prevNext =>
  (emul Ki Hi).bind fun KH =>
  (esub (eident n) KH).bind fun IKH =>
  (emul IKH sigmaE).bind fun sigmaNext =>
  some { s with
    prev_state := fun p => prevNext.entry p 0
    sigma := sigmaNext.entry }

/-- The observation loop of `Slam::MeasurmentModelUpdate` (ekf_slam.cpp lines
168-200): for each center, `radii.at(i)` is read (and its value discarded —
`cur_r` is never used; an out-of-range `.at` throws, modelled as `none`), then
the loop body runs; the state after observation `i` is the prior for
observation `i+1`.  `ns` is the stream of measurement-noise draws, one pair
per iteration. -/
noncomputable def measLoop (radii : List ℝ) (ns : ℕ → ℝ × ℝ) :
    List (ℝ × ℝ) → ℕ → Slam → Option Slam
  | [], _, s => some s
  | c :: rest, i, s =>
    match radii.get? i with
    | none => none
    | some _ =>
      match measStep s i c (ns i) with
      | none => none
      | some sNext => measLoop radii ns rest (i + 1) sNext

/-- `Slam::MeasurmentModelUpdate` (ekf_slam.cpp lines 153-201), name kept with
the source's spelling. -/
noncomputable def MeasurmentModelUpdate (s : Slam) (m : TurtleMap) (ns : ℕ → ℝ × ℝ) :
    Option Slam :=
  measLoop m.radii ns m.centers 0 s

/-- Spec-side predicate (from the claim's words): a 3×3 matrix, given by its
entry function, that is symmetric positive semi-definite on its `3 × 3` range. -/
def IsSPSD3 (q : ℕ → ℕ → ℝ) : Prop :=
  (∀ i j, i < 3 → j < 3 → q i j = q j i) ∧
  (∀ v : ℕ → ℝ, 0 ≤ ∑ i in Finset.range 3, ∑ j in Finset.range 3, v i * q i j * v j)

/-! ### Concrete fixtures used to evaluate the model -/

/-- The everywhere-zero vector. -/
def zfun1 : ℕ → ℝ := fun _ => 0

/-- The everywhere-zero matrix. -/
def zfun2 : ℕ → ℕ → ℝ := fun _ _ => 0

/-- A zero measurement-noise stream. -/
def nsZero : ℕ → ℝ × ℝ := fun _ => (0, 0)

/-- The estimator state `Slam::Slam(1, 0, 0)` constructs: one landmark,
`state_size = 5`, zero mean, block-initial covariance. -/
def slamOne : Slam := ⟨5, zfun2, zfun2, zfun1, initSigma 5⟩

/-- A one-landmark state whose pose is `(θ, x, y) = (π/2, 0, 0)`. -/
noncomputable def slamHeadingHalfPi : Slam :=
  ⟨3, zfun2, zfun2, fun i => if i = 0 then Real.pi / 2 else 0, zfun2⟩

/-- A one-landmark state at the zero pose whose landmark estimate is `(-1, 0)`. -/
def slamMarkBehind : Slam :=
  ⟨5, zfun2, zfun2, fun i => if i = 3 then -1 else 0, initSigma 5⟩

/-- The negated identity as a 3×3 entry function (not positive semi-definite). -/
def qNeg : ℕ → ℕ → ℝ := fun i j => if i = j then -1 else 0

end EkfSlam

/-! ## Theorems -/

namespace Rigid2D

/-- The spec-modelled `normalize_angle` indeed lands in (−π, π]. -/
theorem normalize_angle_mem (a : ℝ) :
    -Real.pi < normalize_angle a ∧ normalize_angle a ≤ Real.pi := by
  have hpi : (0:ℝ) < Real.pi := Real.pi_pos
  have h2pi : (0:ℝ) < 2 * Real.pi := by linarith
  have hle : (a - Real.pi) / (2 * Real.pi) ≤ (⌈(a - Real.pi) / (2 * Real.pi)⌉ : ℤ) :=
    Int.le_ceil _
  have hlt : ((⌈(a - Real.pi) / (2 * Real.pi)⌉ : ℤ) : ℝ) < (a - Real.pi) / (2 * Real.pi) + 1 :=
    Int.ceil_lt_add_one _
  have ht : 2 * Real.pi * ((a - Real.pi) / (2 * Real.pi)) = a - Real.pi := by
    field_simp
  have h1 : a - Real.pi ≤ 2 * Real.pi * (⌈(a - Real.pi) / (2 * Real.pi)⌉ : ℤ) := by
    have := mul_le_mul_of_nonneg_left hle (le_of_lt h2pi)
    linarith
  have h2 : 2 * Real.pi * (⌈(a - Real.pi) / (2 * Real.pi)⌉ : ℤ) < a + Real.pi := by
    have := mul_lt_mul_of_pos_left hlt h2pi
    rw [mul_add, ht] at this
    linarith
  constructor
  · unfold normalize_angle
    linarith
  · unfold normalize_angle
    linarith

/-- At `π` the normalization is the identity (spec scenario
`normalize_angle(π) = π`). -/
theorem normalize_angle_pi : normalize_angle Real.pi = Real.pi := by
  unfold normalize_angle
  have h : (Real.pi - Real.pi) / (2 * Real.pi) = 0 := by
    simp
  rw [h]
  simp

/-- At `−π/2` the normalization is the identity. -/
theorem normalize_angle_neg_pi_div_two :
    normalize_angle (-(Real.pi / 2)) = -(Real.pi / 2) := by
  unfold normalize_angle
  have hpi : (0:ℝ) < Real.pi := Real.pi_pos
  have harg : (-(Real.pi / 2) - Real.pi) / (2 * Real.pi) = -3/4 := by
    field_simp
    ring
  rw [harg]
  have hceil : (⌈(-3/4 : ℝ)⌉ : ℤ) = 0 := by
    rw [Int.ceil_eq_iff]
    constructor <;> norm_num
  rw [hceil]
  simp

end Rigid2D

namespace EkfSlam

open Rigid2D

theorem emul_rows {A B C : EMat} (h : emul A B = some C) : C.rows = A.rows := by
  unfold emul at h
  split at h
  · cases h
    rfl
  · cases h

theorem eadd_of_rows_ne {A B : EMat} (h : A.rows ≠ B.rows) : eadd A B = none := by
  unfold eadd
  rw [if_neg]
  intro hc
  exact h hc.1

/-- Every iteration of the measurement-update loop aborts: the innovation
covariance `Hi * sigma * Hiᵀ` is 2×2 while the `Rnoise` added to it on
ekf_slam.cpp line 193 is 3×3, so Eigen's dimension assertion fails no matter
what the state or the observation is. -/
theorem measStep_none (s : Slam) (i : ℕ) (c ms : ℝ × ℝ) : measStep s i c ms = none := by
  unfold measStep
  cases h1 : emul (HiOf s i) ⟨s.state_size, s.state_size, s.sigma⟩ with
  | none => simp [h1]
  | some t1 =>
    cases h2 : emul t1 (etrans (HiOf s i)) with
    | none => simp [h1, h2]
    | some t2 =>
      have hr : t2.rows = 2 := by
        rw [emul_rows h2, emul_rows h1]
        rfl
      have hadd : eadd t2 ⟨3, 3, s.Rnoise⟩ = none := by
        apply eadd_of_rows_ne
        rw [hr]
        norm_num
      simp [h1, h2, hadd]

/-- C1: the claim states the pose-block row 1 of the observation Jacobian is
`[−1, dy/d, −dx/d]`; the source (ekf_slam.cpp line 226) writes `x/d`, not
`−x/d`, in the `(1,2)` slot.  At `del_x = 1, del_y = 0, d = 1` (with
`state_size = 5`, observation 0) the code's entry is `1` while the claimed
formula `−dx/d` gives `−1` — also contradicting the derivative of the
bearing in `Slam::sensorModel` with respect to the robot's `y`, which is
`−dx/d`. -/
theorem C1_pose_jacobian_sign :
    (getHMatrix 5 1 0 1 0).entry 1 2 = 1 ∧ -(1:ℝ) / 1 = -1 ∧ (1:ℝ) ≠ -1 := by
  refine ⟨?_, by norm_num, by norm_num⟩
  simp [getHMatrix]

/-- C2: the claim states that for `ω = 0` the prediction increments the mean by
`Δy = vx·sin θ`; the source (ekf_slam.cpp line 64) computes
`update(2) = tw.vy * sin(th)`.  From heading `θ = π/2` with twist
`(ω, vx, vy) = (0, 1, 0)` and zero noise, the code leaves `μ[2]` at `0` while
the claimed increment is `vx·sin(π/2) = 1` — the same function's covariance
Jacobian `dupdate(2) = vx·cos θ` (line 68) is the θ-derivative of `vx·sin θ`,
contradicting line 64. -/
theorem C2_pure_translation_uses_vy :
    (MotionModelUpdate slamHeadingHalfPi ⟨0, 1, 0⟩ zfun2 zfun1).prev_state 2 = 0 ∧
    slamHeadingHalfPi.prev_state 2 + 1 * Real.sin (slamHeadingHalfPi.prev_state 0) = 1 ∧
    (0:ℝ) ≠ 1 := by
  refine ⟨?_, ?_, by norm_num⟩
  · simp [MotionModelUpdate, slamHeadingHalfPi, getStateNoise, zfun1, zfun2]
  · simp [slamHeadingHalfPi, Real.sin_pi_div_two]

/-- C3: the claim states the Kalman gain uses
`(H_i Σ H_iᵀ + R_2x2)⁻¹` with the top-left 2×2 block of R; the source
(ekf_slam.cpp line 193) adds the full 3×3 `Rnoise` to the 2×2
`Hi * sigma * Hi.transpose()`, an Eigen dimension mismatch that aborts the
update, so the claimed gain is never computed: any update with at least one
observation fails, and adding the 3×3 `Rnoise` to any 2×2 matrix is
undefined. -/
theorem C3_gain_adds_full_R (s : Slam) (c : ℝ × ℝ) (cs : List (ℝ × ℝ))
    (r : ℝ) (rs : List ℝ) (ns : ℕ → ℝ × ℝ) :
    MeasurmentModelUpdate s ⟨c :: cs, r :: rs⟩ ns = none ∧
    ∀ f : ℕ → ℕ → ℝ, eadd ⟨2, 2, f⟩ ⟨3, 3, s.Rnoise⟩ = none := by
  constructor
  · unfold MeasurmentModelUpdate
    simp [measLoop, measStep_none]
  · intro f
    apply eadd_of_rows_ne
    norm_num

/-- C4 counterexample: the claim states `μ[0] ∈ (−π, π]` after any `predict`;
`Slam::MotionModelUpdate` (ekf_slam.cpp lines 83-90) contains no
normalization.  Prediction with twist `(ω, vx, vy) = (10, 0, 0)` from the zero
state with zero noise leaves `μ[0] = 10`, which is outside `(−π, π]`. -/
theorem C4_counterexample :
    (MotionModelUpdate ⟨3, zfun2, zfun2, zfun1, zfun2⟩ ⟨10, 0, 0⟩ zfun2 zfun1).prev_state 0
      = 10 ∧
    ¬(-Real.pi < 10 ∧ (10:ℝ) ≤ Real.pi) := by
  constructor
  · rw [MotionModelUpdate]
    simp [getStateNoise, zfun1, zfun2]
  · intro h
    have := Real.pi_lt_d2
    linarith [h.2]

/-- C4 amended: after `predict`, `μ[0]` is exactly the prior heading plus
`Δθ` (`0` for `ω = 0`, else `ω`) plus the sampled noise `w₀`, with no
normalization, so it need not lie in `(−π, π]`. -/
theorem C4_amended_no_heading_normalization (s : Slam) (tw : Twist2D)
    (l : ℕ → ℕ → ℝ) (sa : ℕ → ℝ) :
    (MotionModelUpdate s tw l sa).prev_state 0 =
      s.prev_state 0 + (if tw.wz = 0 then 0 else tw.wz) + getStateNoise l sa 0 := by
  rw [MotionModelUpdate]
  by_cases h : tw.wz = 0 <;> simp [h]

/-- `atan2 0 (-1) = π` (the C library value, via the complex argument). -/
theorem atan2_zero_neg_one : atan2 0 (-1) = Real.pi := by
  unfold atan2
  have h : (⟨-1, 0⟩ : ℂ) = -1 := by
    apply Complex.ext <;> simp
  rw [h, Complex.arg_neg_one]

/-- `atan2 (-1) 0 = −π/2`. -/
theorem atan2_neg_one_zero : atan2 (-1) 0 = -(Real.pi / 2) := by
  unfold atan2
  have h : (⟨0, -1⟩ : ℂ) = -Complex.I := by
    apply Complex.ext <;> simp
  rw [h, Complex.arg_neg_I]

/-- C5 counterexample: the claim states the innovation bearing is normalized
into `(−π, π]` before the gain is applied; the source subtracts the two
sensor-model outputs with no normalization of the difference (ekf_slam.cpp
line 196).  With pose `(0,0,0)`, landmark estimate `(−1, 0)` (bearing `π`) and
observed center `(0, −1)` (bearing `−π/2`), the innovation bearing the code
forms is `−π/2 − π = −3π/2`, which lies outside `(−π, π]`. -/
theorem C5_counterexample :
    (innovationAt slamMarkBehind 0 (0, -1) (0, 0)).2 = -(Real.pi / 2) - Real.pi ∧
    ¬(-Real.pi < -(Real.pi / 2) - Real.pi) := by
  constructor
  · rw [innovationAt]
    simp only [sensorModel, slamMarkBehind]
    norm_num
    rw [atan2_zero_neg_one, atan2_neg_one_zero]
    rw [normalize_angle_pi, normalize_angle_neg_pi_div_two]
  · intro h
    have := Real.pi_pos
    linarith

/-- C5 amended: the bearing components of `z` and `ẑ` are each individually
normalized into `(−π, π]` by `Slam::sensorModel`, but the innovation
`z − ẑ` used in the state update is the raw componentwise difference with no
further normalization (so its bearing can lie outside `(−π, π]`, as the
counterexample shows). -/
theorem C5_amended_only_outputs_normalized :
    (∀ (s : Slam) (x y : ℝ) (ms : ℝ × ℝ),
      -Real.pi < (sensorModel s x y ms).2 ∧ (sensorModel s x y ms).2 ≤ Real.pi) ∧
    (∀ (s : Slam) (i : ℕ) (c ms : ℝ × ℝ),
      (innovationAt s i c ms).2 =
        (sensorModel s c.1 c.2 (0, 0)).2 -
        (sensorModel s (s.prev_state (3 + 2 * i)) (s.prev_state (3 + 2 * i + 1)) ms).2) := by
  constructor
  · intro s x y ms
    exact normalize_angle_mem _
  · intro s i c ms
    rfl

/-- C6 counterexample: the claim states an observation at squared distance
`d = 0` is skipped, leaving `μ` and `Σ` unchanged while the rest of the batch
proceeds.  The freshly constructed one-landmark estimator has `d = 0` for its
(only) observation, yet the update does not return the unchanged state: there
is no skip branch (and no `DegenerateGeometry` condition anywhere in the
source); the observation is processed like any other and the update aborts in
the gain computation. -/
theorem C6_counterexample :
    distOf slamOne 0 = 0 ∧
    MeasurmentModelUpdate slamOne ⟨[(1, 0)], [1]⟩ nsZero = none ∧
    MeasurmentModelUpdate slamOne ⟨[(1, 0)], [1]⟩ nsZero ≠ some slamOne := by
  refine ⟨?_, ?_, ?_⟩
  · simp [distOf, delOf, slamOne, zfun1]
  · unfold MeasurmentModelUpdate
    simp [measLoop, measStep_none]
  · unfold MeasurmentModelUpdate
    simp [measLoop, measStep_none]

/-- C6 amended: an observation with `d = 0` is not treated specially — the loop
body has no degenerate-geometry branch, processes it exactly like any other
observation, and (like every observation) aborts at the gain's dimension
mismatch rather than returning the state unchanged. -/
theorem C6_amended_no_skip (s : Slam) (i : ℕ) (c ms : ℝ × ℝ)
    (_h : distOf s i = 0) : measStep s i c ms = none :=
  measStep_none s i c ms

/-- Closed witness for `C6_amended_no_skip` at the concrete degenerate input. -/
theorem C6_amended_no_skip_witness : measStep slamOne 0 (1, 0) (0, 0) = none :=
  C6_amended_no_skip slamOne 0 (1, 0) (0, 0)
    (by simp [distOf, delOf, slamOne, zfun1])

/-- C7 counterexample: the claim states construction with a `Q` that is not
3×3 SPSD fails with `InvalidConfig`; the constructor (ekf_slam.cpp lines
32-48) performs no validation whatsoever.  With `L = 1`, `Q = −I` (not
positive semi-definite) and `R = 0`, construction succeeds and produces the
usual estimator state of size 5. -/
theorem C7_counterexample :
    ¬ IsSPSD3 qNeg ∧
    (Slam.new 1 qNeg zfun2).map (fun s => s.state_size) = some 5 := by
  constructor
  · intro h
    have hv := h.2 (fun i => if i = 0 then 1 else 0)
    simp [qNeg, Finset.sum_range_succ] at hv
    linarith
  · rw [Slam.new]
    norm_num
    decide

/-- C7 amended: construction validates nothing about `Q` or `R` — it succeeds
for every `L ≥ 0` with arbitrary matrices — and for `L < 0` it dies in the
underlying Eigen resize/block assertions rather than reporting any
`InvalidConfig` error. -/
theorem C7_amended_no_validation (L : ℤ) (q r : ℕ → ℕ → ℝ) :
    (Slam.new L q r).isSome = true ↔ 0 ≤ L := by
  rw [Slam.new]
  split <;> simp <;> omega

/-- `initSigma` is symmetric. -/
theorem initSigma_symm (n i j : ℕ) : initSigma n i j = initSigma n j i := by
  unfold initSigma
  by_cases h : i = j
  · subst h
    rfl
  · rw [if_neg (fun hc => h hc.1), if_neg (fun hc => h hc.1.symm)]

/-- C8: symmetry of the covariance is an invariant of the prediction step —
the constructed initial `Σ` is symmetric, and for every symmetric `Σ` and
symmetric `Q`, the propagated covariance `G Σ Gᵀ + Q̄` of
`Slam::updateCovarPrediction` is again symmetric. -/
theorem C8_sigma_symmetry :
    (∀ (L : ℤ) (q r : ℕ → ℕ → ℝ) (s : Slam), Slam.new L q r = some s →
      ∀ i j, s.sigma i j = s.sigma j i) ∧
    (∀ (s : Slam) (dup : ℕ → ℝ),
      (∀ i j, s.sigma i j = s.sigma j i) →
      (∀ i j, s.Qnoise i j = s.Qnoise j i) →
      ∀ i j, updateCovarPrediction s dup i j = updateCovarPrediction s dup j i) := by
  constructor
  · intro L q r s h i j
    rw [Slam.new] at h
    split at h
    · cases h
    · cases h
      exact initSigma_symm _ i j
  · intro s dup hσ hq i j
    unfold updateCovarPrediction
    have key : ∀ a b : ℕ,
        (∑ k in Finset.range s.state_size,
          (∑ l in Finset.range s.state_size, GtEntry dup a l * s.sigma l k) * GtEntry dup b k)
        = ∑ k in Finset.range s.state_size,
            ∑ l in Finset.range s.state_size, GtEntry dup a l * s.sigma l k * GtEntry dup b k :=
      fun a b => Finset.sum_congr rfl fun k _ => Finset.sum_mul _ _ _
    rw [key i j, key j i, Finset.sum_comm]
    have hsum : ∀ k l : ℕ,
        GtEntry dup i k * s.sigma k l * GtEntry dup j l =
        GtEntry dup j l * s.sigma l k * GtEntry dup i k := by
      intro k l
      rw [hσ k l]
      ring
    rw [Finset.sum_congr rfl fun k _ => Finset.sum_congr rfl fun l _ => hsum k l]
    have hQb : (if i < 3 ∧ j < 3 then s.Qnoise i j else 0) =
        (if j < 3 ∧ i < 3 then s.Qnoise j i else 0) := by
      by_cases hij : i < 3 ∧ j < 3
      · rw [if_pos hij, if_pos ⟨hij.2, hij.1⟩, hq i j]
      · rw [if_neg hij, if_neg (fun hc => hij ⟨hc.2, hc.1⟩)]
    rw [hQb]

/-- Closed witness for `C8_sigma_symmetry` at a concrete state and entry. -/
theorem C8_sigma_symmetry_witness :
    slamOne.sigma 3 4 = slamOne.sigma 4 3 ∧
    updateCovarPrediction slamOne zfun1 0 1 = updateCovarPrediction slamOne zfun1 1 0 :=
  ⟨C8_sigma_symmetry.1 1 zfun2 zfun2 slamOne rfl 3 4,
   C8_sigma_symmetry.2 slamOne zfun1
    (fun i j => initSigma_symm 5 i j) (fun _ _ => rfl) 0 1⟩

/-- The measurement-update loop depends on the radii only through their
count: `radii.at(i)` is read (so a too-short list aborts) but `cur_r` is never
used afterwards (ekf_slam.cpp line 172). -/
theorem measLoop_radii_irrelevant (ns : ℕ → ℝ × ℝ) (r1 r2 : List ℝ)
    (h : r1.length = r2.length) :
    ∀ (cs : List (ℝ × ℝ)) (i : ℕ) (s : Slam),
      measLoop r1 ns cs i s = measLoop r2 ns cs i s := by
  intro cs
  induction cs with
  | nil => intro i s; rfl
  | cons c rest ih =>
    intro i s
    unfold measLoop
    cases h1 : r1.get? i with
    | none =>
      have h2 : r2.get? i = none := by
        rw [List.get?_eq_none] at h1 ⊢
        omega
      rw [h2]
    | some v =>
      have hlt1 : i < r1.length := by
        by_contra hge
        rw [not_lt] at hge
        rw [List.get?_eq_none.mpr hge] at h1
        cases h1
      have h2 : r2.get? i ≠ none := by
        rw [Ne, List.get?_eq_none]
        omega
      cases h3 : r2.get? i with
      | none => exact absurd h3 h2
      | some w =>
        cases h4 : measStep s i c (ns i) with
        | none => rfl
        | some sNext => exact ih (i + 1) sNext

/-- C9: for two observation batches with the same centers and equally long
radii sequences, the measurement update from the same estimator state produces
the same outcome — the radii values never influence the estimate. -/
theorem C9_radii_ignored (s : Slam) (ns : ℕ → ℝ × ℝ) (b1 b2 : TurtleMap)
    (hc : b1.centers = b2.centers) (hr : b1.radii.length = b2.radii.length) :
    MeasurmentModelUpdate s b1 ns = MeasurmentModelUpdate s b2 ns := by
  unfold MeasurmentModelUpdate
  rw [hc]
  exact measLoop_radii_irrelevant ns _ _ hr _ 0 s

/-- Closed witness for `C9_radii_ignored`: same centers, radii `[1]` vs `[7]`. -/
theorem C9_radii_ignored_witness :
    MeasurmentModelUpdate slamOne ⟨[(1, 0)], [1]⟩ nsZero =
    MeasurmentModelUpdate slamOne ⟨[(1, 0)], [7]⟩ nsZero :=
  C9_radii_ignored slamOne nsZero ⟨[(1, 0)], [1]⟩ ⟨[(1, 0)], [7]⟩ rfl rfl

/-- C10: if the process noise `Q` stored in the estimator is the zero matrix,
then any Cholesky factor `l` of it (`l·lᵀ = Q`) is the zero matrix, the
injected state noise is exactly zero for every sample draw, and `predict`
yields identical `μ` and `Σ` for any two PRNG streams. -/
theorem C10_zero_Q_deterministic (s : Slam) (tw : Twist2D) (l : ℕ → ℕ → ℝ)
    (sa1 sa2 : ℕ → ℝ)
    (hQ : ∀ i j, i < 3 → j < 3 → s.Qnoise i j = 0)
    (hl : ∀ i j, i < 3 → j < 3 →
      (∑ k in Finset.range 3, l i k * l j k) = s.Qnoise i j) :
    MotionModelUpdate s tw l sa1 = MotionModelUpdate s tw l sa2 := by
  have hl0 : ∀ i k, i < 3 → k < 3 → l i k = 0 := by
    intro i k hi hk
    have hs : (∑ m in Finset.range 3, l i m * l i m) = 0 := by
      rw [hl i i hi hi, hQ i i hi hi]
    have hm := (Finset.sum_eq_zero_iff_of_nonneg
      (fun m _ => mul_self_nonneg (l i m))).mp hs k (by simpa using hk)
    exact mul_self_eq_zero.mp hm
  have hnoise : ∀ (sa : ℕ → ℝ) (i : ℕ), i < 3 → getStateNoise l sa i = 0 := by
    intro sa i hi
    unfold getStateNoise
    rw [hl0 i 0 hi (by norm_num), hl0 i 1 hi (by norm_num),
      hl0 i 2 hi (by norm_num)]
    ring
  unfold MotionModelUpdate
  refine Slam.ext rfl rfl rfl ?_ rfl
  funext i
  dsimp only
  rw [hnoise sa1 0 (by norm_num), hnoise sa1 1 (by norm_num),
    hnoise sa1 2 (by norm_num), hnoise sa2 0 (by norm_num),
    hnoise sa2 1 (by norm_num), hnoise sa2 2 (by norm_num)]

/-- Closed witness for `C10_zero_Q_deterministic`: the zero-`Q` one-landmark
estimator predicts identically under the all-zero and all-one sample streams. -/
theorem C10_zero_Q_deterministic_witness :
    MotionModelUpdate slamOne ⟨1, 1, 0⟩ zfun2 zfun1 =
    MotionModelUpdate slamOne ⟨1, 1, 0⟩ zfun2 (fun _ => 1) :=
  C10_zero_Q_deterministic slamOne ⟨1, 1, 0⟩ zfun2 zfun1 (fun _ => 1)
    (fun _ _ _ _ => rfl) (fun i j _ _ => by simp [zfun2, slamOne])

end EkfSlam
